import Mathlib

/-
  Verification of the multi-source raster merge-and-prioritize procedure used by the
  hydromt_sfincs example notebooks (setup_dep / datasets_dep). The notebooks only call
  the merge engine; its body is not part of this repository, so the engine is modelled
  here from the specification (section 4.1 of spec.md) as a shallow embedding:
  rasters on the target grid are lists of optional rational values (none = no-data),
  and the merge processes layers in priority order, combining per cell.
-/

namespace RasterMerge

/-- Modelled from the spec: a cell of a raster on the Target Grid holds either a
finite value or the no-data sentinel. Values are rationals, standing for the
64-bit floats of the spec, so that offset addition and averaging are exact. -/
abbrev Cell : Type := Option ℚ

/-- Modelled from the spec: a raster on the Target Grid, flattened to a list of
cells; cell indices beyond the list length are not covered. -/
abbrev Raster : Type := List Cell

/-- Modelled from the spec: the merge-method enum with the five policies
first, last, mean, max and min. -/
inductive MergeMethod : Type
  | first : MergeMethod
  | last : MergeMethod
  | mean : MergeMethod
  | max : MergeMethod
  | min : MergeMethod
  deriving DecidableEq

/-- Modelled from the spec: the Target Grid, reduced to what the merge observes:
its cell count (shape, flattened) and its coordinate reference system code. -/
structure TargetGrid : Type where
  ncells : Nat
  crs : Nat
  deriving DecidableEq

/-- Modelled from the spec: a Layer. The external resampling step (2a) is
abstracted: `resampled` is the layer raster already resampled onto the Target
Grid (no-data where the layer does not cover), and `resampleOk` records whether
the declared coordinate reference of the layer can be reprojected to the
target at all (false triggers `LayerResamplingError`). -/
structure Layer : Type where
  crs : Nat
  resampleOk : Bool
  resampled : Raster
  zmin : Option ℚ
  zmax : Option ℚ
  offset : Option ℚ
  mergeMethod : MergeMethod
  mask : Option (List Bool)

/-- Modelled from the spec: the value the resampled layer raster supplies at
output cell `i`; cells outside the stored extent are no-data. -/
def Layer.resampledAt (l : Layer) (i : Nat) : Cell :=
  l.resampled.getD i none

/-- Modelled from the spec, step 2b: a resampled value survives the layer
constraints when it is not below `zmin` and not above `zmax` (when set). -/
def withinLimits (zmin zmax : Option ℚ) (v : ℚ) : Bool :=
  (match zmin with
   | none => true
   | some z => decide (z ≤ v)) &&
  (match zmax with
   | none => true
   | some z => decide (v ≤ z))

/-- Modelled from the spec, step 2b: discard (treat as no-data) any resampled
cell value below `zmin` or above `zmax`. -/
def applyLimits (zmin zmax : Option ℚ) (v : ℚ) : Cell :=
  if withinLimits zmin zmax v then some v else none

/-- Modelled from the spec, step 2c: add the offset (0 when absent) to a value
that survived the constraints. -/
def applyOffset (offset : Option ℚ) (v : ℚ) : ℚ :=
  v + offset.getD 0

/-- Modelled from the spec, step 2d: whether output cell `i` is inside the mask
geometry; an absent mask restricts nothing. -/
def inMask (mask : Option (List Bool)) (i : Nat) : Bool :=
  match mask with
  | none => true
  | some m => m.getD i false

/-- Modelled from the spec, steps 2a-2d in order: the value a layer contributes
at output cell `i` (no-data if uncovered, filtered out by `zmin`/`zmax`, or
outside the mask); the offset is applied after the constraints. -/
def layerValue (l : Layer) (i : Nat) : Cell :=
  match l.resampledAt i with
  | none => none
  | some v =>
    match applyLimits l.zmin l.zmax v with
    | none => none
    | some w =>
      if inMask l.mask i then some (applyOffset l.offset w) else none

/-- Modelled from the spec, step 2e: combine one incoming cell value into the
running output cell, according to the merge method. The `Nat` component is the
per-cell contribution count required by the `mean` method. -/
def combineCell (m : MergeMethod) (cur : Cell) (cnt : Nat) (incoming : Cell) :
    Cell × Nat :=
  match incoming with
  | none => (cur, cnt)
  | some v =>
    match m, cur with
    | .first, none => (some v, cnt + 1)
    | .first, some w => (some w, cnt)
    | .last, _ => (some v, cnt + 1)
    | .max, none => (some v, cnt + 1)
    | .max, some w => (some (max w v), cnt + 1)
    | .min, none => (some v, cnt + 1)
    | .min, some w => (some (min w v), cnt + 1)
    | .mean, none => (some v, cnt + 1)
    | .mean, some w => (some ((w * (cnt : ℚ) + v) / ((cnt : ℚ) + 1)), cnt + 1)

/-- Modelled from the spec: the running output during the merge, one value and
contribution count per Target Grid cell. -/
abbrev MergeState : Type := List (Cell × Nat)

/-- Modelled from the spec, step 1: the initial output, all cells no-data. -/
def initState (n : Nat) : MergeState :=
  List.replicate n (none, 0)

/-- Combine one layer into the running output, cell by cell, starting the cell
index at `i` (helper for `applyLayer`). -/
def applyLayerAux (m : MergeMethod) (l : Layer) : Nat → MergeState → MergeState
  | _, [] => []
  | i, c :: rest => combineCell m c.1 c.2 (layerValue l i) :: applyLayerAux m l (i + 1) rest

/-- Modelled from the spec, step 2: process one layer against the running
output, combining its contribution at every cell per its merge method. -/
def applyLayer (st : MergeState) (l : Layer) : MergeState :=
  applyLayerAux l.mergeMethod l 0 st

/-- Modelled from the spec, section 7: the two fatal failure modes of a merge
invocation. -/
inductive MergeError : Type
  | emptyLayerList : MergeError
  | layerResampling : MergeError
  deriving DecidableEq

/-- Modelled from the spec: the Raster Merge Engine. Fails with
`EmptyLayerListError` on an empty layer list and with `LayerResamplingError`
when some layer cannot be reprojected onto the target; otherwise folds the
layers in priority order (index 0 first) over the all-no-data initial state and
returns the completed Merge Result. -/
def merge (g : TargetGrid) (layers : List Layer) : Except MergeError Raster :=
  if layers.isEmpty then .error .emptyLayerList
  else if layers.all (fun l => l.resampleOk) then
    .ok ((layers.foldl applyLayer (initState g.ncells)).map Prod.fst)
  else .error .layerResampling

/-- Modelled from the notebooks: the slice of the SfincsModel state the merge
claims observe — the model grid definition and the named grid data collection. -/
structure SfincsModel : Type where
  grid : TargetGrid
  gridData : List (String × Raster)

/-- Record a raster in the grid data collection of the model under a key. -/
def setGridData (m : SfincsModel) (key : String) (r : Raster) : SfincsModel :=
  { grid := m.grid, gridData := (key, r) :: m.gridData }

/-- Modelled from the notebooks (`dep = sf.setup_dep(datasets_dep=...)` followed
by `sf.grid["dep"]`): run the merge of the elevation datasets onto the model
grid, record the result in the grid data collection under "dep", and also
return it to the caller. -/
def setup_dep (m : SfincsModel) (datasets_dep : List Layer) :
    Except MergeError (SfincsModel × Raster) :=
  match merge m.grid datasets_dep with
  | .error e => .error e
  | .ok dep => .ok (setGridData m "dep" dep, dep)

/-- One step of the per-cell view of the merge: combine one layer at cell `i`. -/
def cellStep (i : Nat) (c : Cell × Nat) (l : Layer) : Cell × Nat :=
  combineCell l.mergeMethod c.1 c.2 (layerValue l i)

/-- Per-cell view of the merge fold, from an arbitrary starting cell state. -/
def cellFoldFrom (i : Nat) (c : Cell × Nat) (layers : List Layer) : Cell × Nat :=
  layers.foldl (cellStep i) c

/-- Per-cell view of the whole merge: fold all layers at cell `i` starting from
the no-data state. -/
def cellFold (i : Nat) (layers : List Layer) : Cell × Nat :=
  cellFoldFrom i (none, 0) layers

/-- The value of the first layer, in priority order, that supplies a valid
value at cell `i` (no-data when none does). -/
def firstValidValue (i : Nat) (layers : List Layer) : Cell :=
  layers.findSome? (fun l => layerValue l i)

/-- The value of the last layer, in priority order, that supplies a valid value
at cell `i` (no-data when none does). -/
def lastValidValue (i : Nat) (layers : List Layer) : Cell :=
  match layers with
  | [] => none
  | l :: rest =>
    match lastValidValue i rest with
    | some v => some v
    | none => layerValue l i

/-- The list of valid values supplied at cell `i` by the layers, in priority
order. -/
def validValues (i : Nat) (layers : List Layer) : List ℚ :=
  layers.filterMap (fun l => layerValue l i)

/-- Two-cell demonstration grid. -/
def gridC1 : TargetGrid := { ncells := 2, crs := 32633 }

/-- Priority-0 demonstration layer: valid at cell 0 only, default method. -/
def layerC1A : Layer :=
  { crs := 32633, resampleOk := true, resampled := [some 10, none],
    zmin := none, zmax := none, offset := none,
    mergeMethod := MergeMethod.first, mask := none }

/-- Priority-1 demonstration layer: valid at both cells, default method. -/
def layerC1B : Layer :=
  { crs := 32633, resampleOk := true, resampled := [some 20, some 20],
    zmin := none, zmax := none, offset := none,
    mergeMethod := MergeMethod.first, mask := none }

/-- One-cell demonstration grid. -/
def gridC2 : TargetGrid := { ncells := 1, crs := 32633 }

/-- Demonstration layer with the last-method, value 1. -/
def layerC2A : Layer :=
  { crs := 32633, resampleOk := true, resampled := [some 1],
    zmin := none, zmax := none, offset := none,
    mergeMethod := MergeMethod.last, mask := none }

/-- Demonstration layer with the last-method, value 2. -/
def layerC2B : Layer :=
  { crs := 32633, resampleOk := true, resampled := [some 2],
    zmin := none, zmax := none, offset := none,
    mergeMethod := MergeMethod.last, mask := none }

/-- Two-cell demonstration grid for the zmin scenario. -/
def gridC3 : TargetGrid := { ncells := 2, crs := 32633 }

/-- Scenario layer A: constant 2 everywhere with zmin = 3 (fully filtered). -/
def layerC3A : Layer :=
  { crs := 32633, resampleOk := true, resampled := [some 2, some 2],
    zmin := some 3, zmax := none, offset := none,
    mergeMethod := MergeMethod.first, mask := none }

/-- Scenario layer B: constant 5 everywhere, no constraints. -/
def layerC3B : Layer :=
  { crs := 32633, resampleOk := true, resampled := [some 5, some 5],
    zmin := none, zmax := none, offset := none,
    mergeMethod := MergeMethod.first, mask := none }

/-- One-cell demonstration grid for the mean scenario. -/
def gridC4 : TargetGrid := { ncells := 1, crs := 32633 }

/-- Mean-method scenario layer with value 2. -/
def layerC4A : Layer :=
  { crs := 32633, resampleOk := true, resampled := [some 2],
    zmin := none, zmax := none, offset := none,
    mergeMethod := MergeMethod.mean, mask := none }

/-- Mean-method scenario layer with value 4. -/
def layerC4B : Layer :=
  { crs := 32633, resampleOk := true, resampled := [some 4],
    zmin := none, zmax := none, offset := none,
    mergeMethod := MergeMethod.mean, mask := none }

/-- Mean-method scenario layer with value 6. -/
def layerC4C : Layer :=
  { crs := 32633, resampleOk := true, resampled := [some 6],
    zmin := none, zmax := none, offset := none,
    mergeMethod := MergeMethod.mean, mask := none }

/-- Demonstration running output with one already-filled cell. -/
def stateC8 : MergeState := [(some 1, 1)]

/-- Demonstration layer covering no cell at all. -/
def layerC8 : Layer :=
  { crs := 32633, resampleOk := true, resampled := [],
    zmin := none, zmax := none, offset := none,
    mergeMethod := MergeMethod.first, mask := none }

/-- Demonstration layer with both limits and an offset, value 5 at cell 0. -/
def layerC9 : Layer :=
  { crs := 32633, resampleOk := true, resampled := [some 5],
    zmin := some 3, zmax := some 100, offset := some 10,
    mergeMethod := MergeMethod.first, mask := none }

/-- One-cell demonstration grid for the setup acceptance claim. -/
def gridC10 : TargetGrid := { ncells := 1, crs := 32633 }

/-- Demonstration elevation layer for the setup acceptance claim. -/
def layerC10 : Layer :=
  { crs := 32633, resampleOk := true, resampled := [some 7],
    zmin := none, zmax := none, offset := none,
    mergeMethod := MergeMethod.first, mask := none }

/-- Demonstration model before the dep setup call. -/
def modelC10 : SfincsModel := { grid := gridC10, gridData := [] }

/-- Demonstration model after the dep setup call. -/
def modelC10b : SfincsModel :=
  { grid := gridC10, gridData := [("dep", [some 7])] }

theorem applyLayerAux_length (m : MergeMethod) (l : Layer) :
    ∀ (j : Nat) (st : MergeState), (applyLayerAux m l j st).length = st.length := by
  intro j st
  induction st generalizing j with
  | nil => rfl
  | cons c rest ih => simpa [applyLayerAux] using ih (j + 1)

theorem applyLayerAux_getD (m : MergeMethod) (l : Layer) :
    ∀ (st : MergeState) (j i : Nat) (d : Cell × Nat),
      (applyLayerAux m l j st).getD i d =
        if i < st.length then
          combineCell m (st.getD i d).1 (st.getD i d).2 (layerValue l (j + i))
        else d := by
  intro st
  induction st with
  | nil => intro j i d; simp [applyLayerAux]
  | cons c rest ih =>
    intro j i d
    cases i with
    | zero => simp [applyLayerAux]
    | succ i =>
      have := ih (j + 1) i d
      simp only [applyLayerAux, List.getD_cons_succ, List.length_cons, this]
      have harith : j + 1 + i = j + (i + 1) := by omega
      rw [harith]
      simp [Nat.succ_lt_succ_iff]

theorem applyLayer_length (st : MergeState) (l : Layer) :
    (applyLayer st l).length = st.length :=
  applyLayerAux_length l.mergeMethod l 0 st

theorem applyLayer_getD (st : MergeState) (l : Layer) (i : Nat) (d : Cell × Nat)
    (hi : i < st.length) :
    (applyLayer st l).getD i d = cellStep i (st.getD i d) l := by
  rw [applyLayer, applyLayerAux_getD]
  simp [hi, cellStep]

theorem foldl_applyLayer_length (layers : List Layer) :
    ∀ (st : MergeState), (layers.foldl applyLayer st).length = st.length := by
  induction layers with
  | nil => intro st; rfl
  | cons l rest ih =>
    intro st
    rw [List.foldl_cons, ih, applyLayer_length]

theorem foldl_applyLayer_getD (layers : List Layer) :
    ∀ (st : MergeState) (i : Nat) (d : Cell × Nat), i < st.length →
      (layers.foldl applyLayer st).getD i d = cellFoldFrom i (st.getD i d) layers := by
  induction layers with
  | nil => intro st i d _; rfl
  | cons l rest ih =>
    intro st i d hi
    rw [List.foldl_cons]
    have hlen : i < (applyLayer st l).length := by rw [applyLayer_length]; exact hi
    rw [ih (applyLayer st l) i d hlen, applyLayer_getD st l i d hi]
    rfl

theorem initState_getD (n i : Nat) (d : Cell × Nat) (hi : i < n) :
    (initState n).getD i d = (none, 0) := by
  induction n generalizing i with
  | zero => omega
  | succ n ih =>
    cases i with
    | zero => rfl
    | succ i =>
      have : List.replicate (n + 1) ((none : Cell), 0) =
          ((none : Cell), 0) :: List.replicate n ((none : Cell), 0) := rfl
      rw [initState, this, List.getD_cons_succ]
      exact ih i (by omega)

theorem map_fst_getD (st : MergeState) (i : Nat) (hi : i < st.length) :
    (st.map Prod.fst).getD i none = (st.getD i (none, 0)).1 := by
  induction st generalizing i with
  | nil => simp at hi
  | cons c rest ih =>
    cases i with
    | zero => rfl
    | succ i =>
      simp only [List.map_cons, List.getD_cons_succ]
      exact ih i (by simpa using hi)

theorem merge_ok_result (g : TargetGrid) (layers : List Layer) (out : Raster)
    (h : merge g layers = Except.ok out) :
    out = (layers.foldl applyLayer (initState g.ncells)).map Prod.fst := by
  rw [merge] at h
  split at h
  · cases h
  · split at h
    · cases h; rfl
    · cases h

theorem merge_ok_length (g : TargetGrid) (layers : List Layer) (out : Raster)
    (h : merge g layers = Except.ok out) : out.length = g.ncells := by
  rw [merge_ok_result g layers out h, List.length_map, foldl_applyLayer_length]
  simp [initState]

theorem merge_cell (g : TargetGrid) (layers : List Layer) (out : Raster) (i : Nat)
    (h : merge g layers = Except.ok out) (hi : i < g.ncells) :
    out.getD i none = (cellFold i layers).1 := by
  rw [merge_ok_result g layers out h]
  have hlen : i < (layers.foldl applyLayer (initState g.ncells)).length := by
    rw [foldl_applyLayer_length]; simpa [initState] using hi
  rw [map_fst_getD _ i hlen,
    foldl_applyLayer_getD layers (initState g.ncells) i (none, 0) (by simpa [initState] using hi),
    initState_getD g.ncells i (none, 0) hi]
  rfl

theorem cellFoldFrom_first_fixed (i : Nat) (layers : List Layer)
    (h : ∀ l ∈ layers, l.mergeMethod = MergeMethod.first) (w : ℚ) (c : Nat) :
    cellFoldFrom i (some w, c) layers = (some w, c) := by
  induction layers with
  | nil => rfl
  | cons l rest ih =>
    have hl : l.mergeMethod = MergeMethod.first := h l (by simp)
    have hstep : cellStep i (some w, c) l = (some w, c) := by
      rw [cellStep, hl]
      cases layerValue l i <;> rfl
    rw [cellFoldFrom, List.foldl_cons, hstep]
    exact ih (fun x hx => h x (by simp [hx]))

theorem cellFold_first (i : Nat) (layers : List Layer)
    (h : ∀ l ∈ layers, l.mergeMethod = MergeMethod.first) :
    (cellFold i layers).1 = firstValidValue i layers := by
  induction layers with
  | nil => rfl
  | cons l rest ih =>
    have hl : l.mergeMethod = MergeMethod.first := h l (by simp)
    have hrest : ∀ x ∈ rest, x.mergeMethod = MergeMethod.first :=
      fun x hx => h x (by simp [hx])
    rw [cellFold, cellFoldFrom, List.foldl_cons]
    cases hv : layerValue l i with
    | none =>
      have hstep : cellStep i (none, 0) l = (none, 0) := by
        rw [cellStep, hv]; rfl
      rw [hstep]
      rw [firstValidValue, List.findSome?_cons]
      simpa [hv, firstValidValue] using ih hrest
    | some v =>
      have hstep : cellStep i (none, 0) l = (some v, 1) := by
        rw [cellStep, hl, hv]; rfl
      rw [hstep]
      have : cellFoldFrom i (some v, 1) rest = (some v, 1) :=
        cellFoldFrom_first_fixed i rest hrest v 1
      rw [show rest.foldl (cellStep i) (some v, 1) = cellFoldFrom i (some v, 1) rest from rfl,
        this, firstValidValue, List.findSome?_cons, hv]

theorem cellFoldFrom_last (i : Nat) (layers : List Layer)
    (h : ∀ l ∈ layers, l.mergeMethod = MergeMethod.last) :
    ∀ c : Cell × Nat,
      (cellFoldFrom i c layers).1 =
        match lastValidValue i layers with
        | some v => some v
        | none => c.1 := by
  induction layers with
  | nil => intro c; rfl
  | cons l rest ih =>
    intro c
    have hl : l.mergeMethod = MergeMethod.last := h l (by simp)
    have hrest : ∀ x ∈ rest, x.mergeMethod = MergeMethod.last :=
      fun x hx => h x (by simp [hx])
    rw [cellFoldFrom, List.foldl_cons]
    have hmain := ih hrest (cellStep i c l)
    rw [show rest.foldl (cellStep i) (cellStep i c l) = cellFoldFrom i (cellStep i c l) rest
      from rfl] at *
    rw [hmain, lastValidValue]
    cases hlast : lastValidValue i rest with
    | some v => rfl
    | none =>
      cases hv : layerValue l i with
      | none =>
        have : cellStep i c l = (c.1, c.2) := by rw [cellStep, hv]; rfl
        simp [this]
      | some v =>
        have : cellStep i c l = (some v, c.2 + 1) := by rw [cellStep, hl, hv]; rfl
        simp [this]

theorem cellFold_last (i : Nat) (layers : List Layer)
    (h : ∀ l ∈ layers, l.mergeMethod = MergeMethod.last) :
    (cellFold i layers).1 = lastValidValue i layers := by
  rw [cellFold, cellFoldFrom_last i layers h (none, 0)]
  cases lastValidValue i layers <;> rfl

theorem cellFoldFrom_mean_invariant (i : Nat) (layers : List Layer)
    (h : ∀ l ∈ layers, l.mergeMethod = MergeMethod.mean) :
    ∀ (s : ℚ) (k : Nat), 0 < k →
      cellFoldFrom i (some (s / (k : ℚ)), k) layers =
        (some ((s + (validValues i layers).sum) / ((k : ℚ) + ((validValues i layers).length : ℚ))),
         k + (validValues i layers).length) := by
  induction layers with
  | nil => intro s k hk; simp [cellFoldFrom, validValues]
  | cons l rest ih =>
    intro s k hk
    have hl : l.mergeMethod = MergeMethod.mean := h l (by simp)
    have hrest : ∀ x ∈ rest, x.mergeMethod = MergeMethod.mean :=
      fun x hx => h x (by simp [hx])
    rw [cellFoldFrom, List.foldl_cons]
    cases hv : layerValue l i with
    | none =>
      have hstep : cellStep i (some (s / (k : ℚ)), k) l = (some (s / (k : ℚ)), k) := by
        rw [cellStep, hv]; rfl
      rw [hstep,
        show rest.foldl (cellStep i) (some (s / (k : ℚ)), k) =
          cellFoldFrom i (some (s / (k : ℚ)), k) rest from rfl,
        ih hrest s k hk]
      simp [validValues, List.filterMap_cons, hv]
    | some v =>
      have hknz : ((k : ℚ)) ≠ 0 := by
        exact_mod_cast Nat.pos_iff_ne_zero.mp hk
      have hstep : cellStep i (some (s / (k : ℚ)), k) l =
          (some ((s + v) / ((k : ℚ) + 1)), k + 1) := by
        rw [cellStep, hl, hv]
        simp only [combineCell]
        congr 1
        congr 1
        field_simp
      rw [hstep,
        show rest.foldl (cellStep i) (some ((s + v) / ((k : ℚ) + 1)), k + 1) =
          cellFoldFrom i (some ((s + v) / ((k : ℚ) + 1)), k + 1) rest from rfl]
      have hcast : ((k : ℚ) + 1) = ((k + 1 : Nat) : ℚ) := by push_cast; ring
      rw [hcast, ih hrest (s + v) (k + 1) (by omega)]
      have hvv : validValues i (l :: rest) = v :: validValues i rest := by
        simp [validValues, List.filterMap_cons, hv]
      rw [hvv]
      simp only [Prod.mk.injEq, List.sum_cons, List.length_cons]
      constructor
      · congr 1
        push_cast
        ring
      · omega

theorem cellFold_mean (i : Nat) (layers : List Layer)
    (h : ∀ l ∈ layers, l.mergeMethod = MergeMethod.mean) :
    (cellFold i layers).1 =
      match validValues i layers with
      | [] => none
      | vs => some (vs.sum / (vs.length : ℚ)) := by
  induction layers with
  | nil => rfl
  | cons l rest ih =>
    have hl : l.mergeMethod = MergeMethod.mean := h l (by simp)
    have hrest : ∀ x ∈ rest, x.mergeMethod = MergeMethod.mean :=
      fun x hx => h x (by simp [hx])
    rw [cellFold, cellFoldFrom, List.foldl_cons]
    cases hv : layerValue l i with
    | none =>
      have hstep : cellStep i (none, 0) l = (none, 0) := by
        rw [cellStep, hv]; rfl
      rw [hstep]
      have hvv : validValues i (l :: rest) = validValues i rest := by
        simp [validValues, List.filterMap_cons, hv]
      rw [hvv]
      exact ih hrest
    | some v =>
      have hstep : cellStep i (none, 0) l = (some v, 1) := by
        rw [cellStep, hl, hv]; rfl
      rw [hstep]
      have hv1 : (some v : Cell) = some (v / ((1 : Nat) : ℚ)) := by norm_num
      rw [show rest.foldl (cellStep i) (some v, 1) = cellFoldFrom i (some v, 1) rest from rfl]
      have := cellFoldFrom_mean_invariant i rest hrest v 1 (by omega)
      rw [show ((some v, 1) : Cell × Nat) = (some (v / ((1 : Nat) : ℚ)), 1) by rw [← hv1], this]
      have hvv : validValues i (l :: rest) = v :: validValues i rest := by
        simp [validValues, List.filterMap_cons, hv]
      rw [hvv]
      simp only [List.sum_cons, List.length_cons]
      congr 1
      push_cast
      ring

theorem getD_of_length_le {α : Type} (xs : List α) (i : Nat) (d : α)
    (h : xs.length ≤ i) : xs.getD i d = d := by
  induction xs generalizing i with
  | nil => rfl
  | cons x rest ih =>
    cases i with
    | zero => simp at h
    | succ i => exact List.getD_cons_succ.trans (ih i (by simpa using h))

/-- C1: with the default merge method `first` on every layer, every output cell
of a successful merge equals the value supplied by the first layer in priority
order (index 0 first) that supplies a valid value at that cell. -/
theorem first_merge_takes_first_valid (g : TargetGrid) (layers : List Layer)
    (out : Raster) (i : Nat)
    (hm : ∀ l ∈ layers, l.mergeMethod = MergeMethod.first)
    (h : merge g layers = Except.ok out) (hi : i < g.ncells) :
    out.getD i none = firstValidValue i layers := by
  rw [merge_cell g layers out i h hi]
  exact cellFold_first i layers hm

/-- Witness for C1: two fully prioritized layers, A valid only at cell 0 with
value 10 and B valid everywhere with value 20; the merged output is A at cell 0
and B at cell 1, matching the first-valid rule at cell 1. -/
theorem first_merge_takes_first_valid_witness :
    (∀ l ∈ [layerC1A, layerC1B], l.mergeMethod = MergeMethod.first) ∧
    merge gridC1 [layerC1A, layerC1B] = Except.ok [some 10, some 20] ∧
    1 < gridC1.ncells ∧
    ([some 10, some 20] : Raster).getD 1 none = firstValidValue 1 [layerC1A, layerC1B] := by
  have hm : ∀ l ∈ [layerC1A, layerC1B], l.mergeMethod = MergeMethod.first := by
    intro l hl
    rcases List.mem_cons.mp hl with rfl | hl
    · rfl
    rcases List.mem_cons.mp hl with rfl | hl
    · rfl
    · cases hl
  have hok : merge gridC1 [layerC1A, layerC1B] = Except.ok [some 10, some 20] := by
    norm_num [merge, applyLayer, applyLayerAux, layerValue, Layer.resampledAt, applyLimits,
      withinLimits, inMask, applyOffset, combineCell, initState, layerC1A, layerC1B, gridC1,
      List.replicate]
  have hi : 1 < gridC1.ncells := by norm_num [gridC1]
  exact ⟨hm, hok, hi, first_merge_takes_first_valid gridC1 [layerC1A, layerC1B]
    [some 10, some 20] 1 hm hok hi⟩

/-- C2: a layer with merge method `last` overwrites, wherever it supplies a
valid value, whatever value earlier layers wrote (first conjunct); hence a
merge whose layers all use `last` yields at every cell the value of the last
layer valid there (second conjunct). -/
theorem last_merge_overwrites :
    (∀ (cur : Cell) (cnt : Nat) (v : ℚ),
        (combineCell MergeMethod.last cur cnt (some v)).1 = some v) ∧
    (∀ (g : TargetGrid) (layers : List Layer) (out : Raster) (i : Nat),
        (∀ l ∈ layers, l.mergeMethod = MergeMethod.last) →
        merge g layers = Except.ok out → i < g.ncells →
        out.getD i none = lastValidValue i layers) := by
  constructor
  · intro cur cnt v
    cases cur <;> rfl
  · intro g layers out i hm h hi
    rw [merge_cell g layers out i h hi]
    exact cellFold_last i layers hm

/-- Witness for C2: two fully overlapping last-method layers with values 1 then
2; the merged cell equals 2, the last valid value, not the first. -/
theorem last_merge_overwrites_witness :
    (∀ l ∈ [layerC2A, layerC2B], l.mergeMethod = MergeMethod.last) ∧
    merge gridC2 [layerC2A, layerC2B] = Except.ok [some 2] ∧
    0 < gridC2.ncells ∧
    ([some 2] : Raster).getD 0 none = lastValidValue 0 [layerC2A, layerC2B] := by
  have hm : ∀ l ∈ [layerC2A, layerC2B], l.mergeMethod = MergeMethod.last := by
    intro l hl
    rcases List.mem_cons.mp hl with rfl | hl
    · rfl
    rcases List.mem_cons.mp hl with rfl | hl
    · rfl
    · cases hl
  have hok : merge gridC2 [layerC2A, layerC2B] = Except.ok [some 2] := by
    norm_num [merge, applyLayer, applyLayerAux, layerValue, Layer.resampledAt, applyLimits,
      withinLimits, inMask, applyOffset, combineCell, initState, layerC2A, layerC2B, gridC2,
      List.replicate]
  have hi : 0 < gridC2.ncells := by norm_num [gridC2]
  exact ⟨hm, hok, hi, last_merge_overwrites.2 gridC2 [layerC2A, layerC2B] [some 2] 0 hm hok hi⟩

/-- C3: a resampled cell value strictly below the zmin of its layer is
discarded and the layer contributes nothing at that cell (first conjunct); in
the spec scenario a constant-2 layer with zmin 3 followed by a constant-5
layer merges to 5 everywhere (second conjunct). -/
theorem zmin_filtered_never_appears :
    (∀ (l : Layer) (i : Nat) (z v : ℚ), l.zmin = some z → l.resampledAt i = some v →
        v < z → layerValue l i = none) ∧
    merge gridC3 [layerC3A, layerC3B] = Except.ok [some 5, some 5] := by
  constructor
  · intro l i z v hz hr hlt
    simp only [layerValue, hr, applyLimits, withinLimits, hz]
    simp [not_le.mpr hlt]
  · norm_num [merge, applyLayer, applyLayerAux, layerValue, Layer.resampledAt, applyLimits,
      withinLimits, inMask, applyOffset, combineCell, initState, layerC3A, layerC3B, gridC3,
      List.replicate]

/-- Witness for C3: the scenario layer A has zmin 3 and resampled value 2 at
cell 0, and its contribution there is no-data. -/
theorem zmin_filtered_never_appears_witness :
    layerC3A.zmin = some 3 ∧ layerC3A.resampledAt 0 = some 2 ∧ (2 : ℚ) < 3 ∧
    layerValue layerC3A 0 = none :=
  ⟨rfl, rfl, by norm_num,
    zmin_filtered_never_appears.1 layerC3A 0 3 2 rfl rfl (by norm_num)⟩

/-- C4: when every layer uses merge method `mean`, every output cell of a
successful merge is the arithmetic mean of the values of all layers that
validly cover that cell (no-data when none does). -/
theorem mean_merge_is_arithmetic_mean (g : TargetGrid) (layers : List Layer)
    (out : Raster) (i : Nat)
    (hm : ∀ l ∈ layers, l.mergeMethod = MergeMethod.mean)
    (h : merge g layers = Except.ok out) (hi : i < g.ncells) :
    out.getD i none =
      match validValues i layers with
      | [] => none
      | vs => some (vs.sum / (vs.length : ℚ)) := by
  rw [merge_cell g layers out i h hi]
  exact cellFold_mean i layers hm

/-- Witness for C4: three fully overlapping mean-method layers with values 2, 4
and 6 merge to 4, the arithmetic mean, at the overlapping cell. -/
theorem mean_merge_is_arithmetic_mean_witness :
    (∀ l ∈ [layerC4A, layerC4B, layerC4C], l.mergeMethod = MergeMethod.mean) ∧
    merge gridC4 [layerC4A, layerC4B, layerC4C] = Except.ok [some 4] ∧
    0 < gridC4.ncells ∧
    ([some 4] : Raster).getD 0 none =
      (match validValues 0 [layerC4A, layerC4B, layerC4C] with
       | [] => none
       | vs => some (vs.sum / (vs.length : ℚ))) := by
  have hm : ∀ l ∈ [layerC4A, layerC4B, layerC4C], l.mergeMethod = MergeMethod.mean := by
    intro l hl
    rcases List.mem_cons.mp hl with rfl | hl
    · rfl
    rcases List.mem_cons.mp hl with rfl | hl
    · rfl
    rcases List.mem_cons.mp hl with rfl | hl
    · rfl
    · cases hl
  have hok : merge gridC4 [layerC4A, layerC4B, layerC4C] = Except.ok [some 4] := by
    norm_num [merge, applyLayer, applyLayerAux, layerValue, Layer.resampledAt, applyLimits,
      withinLimits, inMask, applyOffset, combineCell, initState, layerC4A, layerC4B, layerC4C,
      gridC4, List.replicate]
  have hi : 0 < gridC4.ncells := by norm_num [gridC4]
  exact ⟨hm, hok, hi, mean_merge_is_arithmetic_mean gridC4 [layerC4A, layerC4B, layerC4C]
    [some 4] 0 hm hok hi⟩

/-- C5: with merge method `max` (respectively `min`) the combined cell is the
cellwise maximum (respectively minimum) of the existing and the new value, and
no-data acts as an absent operand: if exactly one of the two values is valid
the result is that valid value, and no-data never replaces a valid value. -/
theorem maxmin_nodata_as_absent :
    ∀ (w v : ℚ) (c : Nat),
      (combineCell MergeMethod.max (some w) c (some v)).1 = some (max w v) ∧
      (combineCell MergeMethod.max none c (some v)).1 = some v ∧
      (combineCell MergeMethod.max (some w) c none).1 = some w ∧
      (combineCell MergeMethod.min (some w) c (some v)).1 = some (min w v) ∧
      (combineCell MergeMethod.min none c (some v)).1 = some v ∧
      (combineCell MergeMethod.min (some w) c none).1 = some w :=
  fun _ _ _ => ⟨rfl, rfl, rfl, rfl, rfl, rfl⟩

/-- C6: merging an empty layer list fails immediately with
`EmptyLayerListError`, for every target grid. -/
theorem empty_layer_list_fails :
    ∀ g : TargetGrid, merge g [] = Except.error MergeError.emptyLayerList :=
  fun _ => rfl

/-- C7: a merge invocation is atomic: it either fully succeeds with a complete
result of exactly the target-grid shape, or fails with one of the two declared
errors (empty layer list, or a layer that cannot be resampled) and returns no
partial result. -/
theorem merge_is_atomic :
    ∀ (g : TargetGrid) (layers : List Layer),
      (∃ out, merge g layers = Except.ok out ∧ out.length = g.ncells) ∨
      (∃ e, merge g layers = Except.error e ∧
        ((e = MergeError.emptyLayerList ∧ layers = []) ∨
         (e = MergeError.layerResampling ∧ ∃ l ∈ layers, l.resampleOk = false))) := by
  intro g layers
  by_cases he : layers.isEmpty = true
  · right
    refine ⟨MergeError.emptyLayerList, by simp [merge, he], Or.inl ⟨rfl, ?_⟩⟩
    exact List.isEmpty_iff.mp he
  · by_cases ha : layers.all (fun l => l.resampleOk) = true
    · left
      refine ⟨(layers.foldl applyLayer (initState g.ncells)).map Prod.fst, ?_, ?_⟩
      · simp [merge, he, ha]
      · rw [List.length_map, foldl_applyLayer_length]
        simp [initState]
    · right
      refine ⟨MergeError.layerResampling, by simp [merge, he, ha], Or.inr ⟨rfl, ?_⟩⟩
      simp only [List.all_eq_true, not_forall] at ha
      obtain ⟨l, hl, hfalse⟩ := ha
      exact ⟨l, hl, by simpa using hfalse⟩

/-- C8: at any output cell that a layer (after resampling, constraint
filtering and masking) does not cover, processing that layer leaves the
running output value unchanged, whatever its merge method. -/
theorem uncovered_cells_unchanged (st : MergeState) (l : Layer) (i : Nat)
    (d : Cell × Nat) (h : layerValue l i = none) :
    (applyLayer st l).getD i d = st.getD i d := by
  by_cases hi : i < st.length
  · rw [applyLayer_getD st l i d hi, cellStep, h]
    rfl
  · have hle : st.length ≤ i := Nat.le_of_not_lt hi
    rw [getD_of_length_le st i d hle,
      getD_of_length_le (applyLayer st l) i d (by rw [applyLayer_length]; exact hle)]

/-- Witness for C8: a layer covering no cell leaves the already-filled cell 0
of the running output untouched. -/
theorem uncovered_cells_unchanged_witness :
    layerValue layerC8 0 = none ∧
    (applyLayer stateC8 layerC8).getD 0 (none, 0) = stateC8.getD 0 (none, 0) :=
  ⟨rfl, uncovered_cells_unchanged stateC8 layerC8 0 (none, 0) rfl⟩

/-- C9: for every layer, the zmin/zmax constraints are evaluated on the
resampled pre-offset cell value, and the offset is added only to values that
survive the filtering: at any in-mask cell with resampled value v the layer
contributes v plus the offset when v is within the limits, and nothing
otherwise. -/
theorem limits_filter_pre_offset (l : Layer) (i : Nat) (v : ℚ)
    (hr : l.resampledAt i = some v) (hm : inMask l.mask i = true) :
    layerValue l i =
      if withinLimits l.zmin l.zmax v then some (v + l.offset.getD 0) else none := by
  simp only [layerValue, hr, applyLimits]
  by_cases hw : withinLimits l.zmin l.zmax v
  · simp [hw, hm, applyOffset]
  · simp [hw]

/-- Witness for C9: a layer with zmin 3, zmax 100 and offset 10 contributes
5 + 10 at a cell with resampled value 5: the value 5, not 15, was compared
against the limits, and the offset was added afterwards. -/
theorem limits_filter_pre_offset_witness :
    layerC9.resampledAt 0 = some 5 ∧ inMask layerC9.mask 0 = true ∧
    layerValue layerC9 0 =
      (if withinLimits layerC9.zmin layerC9.zmax 5 then some (5 + layerC9.offset.getD 0)
       else none) :=
  ⟨rfl, rfl, limits_filter_pre_offset layerC9 0 5 rfl rfl⟩

/-- C10: a successful dep setup call both returns the merge result to the
caller and records the same raster in the model grid collection under the key
"dep", where it is subsequently readable. -/
theorem setup_dep_records_and_returns (m : SfincsModel) (ds : List Layer)
    (m2 : SfincsModel) (dep : Raster)
    (h : setup_dep m ds = Except.ok (m2, dep)) :
    m2.gridData.lookup "dep" = some dep ∧ merge m.grid ds = Except.ok dep := by
  rw [setup_dep] at h
  cases hm : merge m.grid ds with
  | error e => rw [hm] at h; cases h
  | ok r =>
    rw [hm] at h
    cases h
    refine ⟨?_, rfl⟩
    simp [setGridData, List.lookup]

/-- Witness for C10: the demonstration dep setup returns the one-cell raster 7
and the updated model holds that same raster under "dep". -/
theorem setup_dep_records_and_returns_witness :
    setup_dep modelC10 [layerC10] = Except.ok (modelC10b, [some 7]) ∧
    modelC10b.gridData.lookup "dep" = some [some 7] ∧
    merge modelC10.grid [layerC10] = Except.ok [some 7] := by
  have hok : setup_dep modelC10 [layerC10] = Except.ok (modelC10b, [some 7]) := by
    norm_num [setup_dep, setGridData, merge, applyLayer, applyLayerAux, layerValue,
      Layer.resampledAt, applyLimits, withinLimits, inMask, applyOffset, combineCell,
      initState, layerC10, gridC10, modelC10, modelC10b, List.replicate]
  exact ⟨hok, setup_dep_records_and_returns modelC10 [layerC10] modelC10b [some 7] hok⟩

end RasterMerge
